import Mathlib

/-!
Verification of the pinned-mutex library (src/lib.rs, src/std.rs,
src/parking_lot.rs): a mutual-exclusion primitive whose protected value keeps a
stable memory address once the mutex is pinned, plus a pinned condition
variable.

The two engine variants in the source are embedded separately:
* `ParkingLot` models src/parking_lot.rs (parking_lot engine, no poisoning,
  with `PinnedCondvar`);
* `StdSync` models src/std.rs and src/lib.rs (std::sync engine with poisoning;
  both files wrap the same engine and the same guard layout).

Machine addresses are modelled as natural numbers: a pinned mutex occupies a
fixed slot (`PinnedSlot`), and `Pin` promises the slot's address never changes.
Operations rebuild every state component except the address, mirroring the
Rust code, which never moves the protected value once the mutex is pinned.
-/

namespace PinnedMutexModel

/-- Outcome of the repository's lock wrappers: either a guard is acquired, or
the operation terminates fatally (the expect panic on a poisoned engine). No
constructor carries a recoverable error value. -/
inductive LockOutcome (G : Type) where
  | acquired (g : G)
  | fatal
deriving DecidableEq

/-- The proposition that P holds of an acquired guard; vacuous on the fatal
path, which hands the caller nothing. -/
def LockOutcome.onAcquired {G : Type} (o : LockOutcome G) (P : G → Prop) : Prop :=
  match o with
  | .acquired g => P g
  | .fatal => True

/-- The proposition that P holds of the payload whenever the optional result
is present. -/
def allSome {α : Type} (o : Option α) (P : α → Prop) : Prop :=
  match o with
  | some a => P a
  | none => True

namespace ParkingLot

/-- parking_lot::Mutex, the external lock engine, modelled at its boundary
(spec section 6): the protected value plus a locked flag. parking_lot has no
poisoning, so no poisoned state exists for this engine. -/
structure Mutex (T : Type) where
  value : T
  locked : Bool
deriving DecidableEq

variable {T : Type}

/-- parking_lot::Mutex::new: a fresh unlocked mutex holding init. -/
def Mutex.new (init : T) : Mutex T :=
  { value := init, locked := false }

/-- PinnedMutex (parking_lot.rs lines 8-11): owns one engine mutex. -/
structure PinnedMutex (T : Type) where
  inner : Mutex T
deriving DecidableEq

/-- PinnedMutex::new (parking_lot.rs lines 14-18): wraps Mutex::new(init). -/
def PinnedMutex.new (init : T) : PinnedMutex T :=
  { inner := Mutex.new init }

/-- derive(Default) on PinnedMutex (parking_lot.rs line 8): field-wise default,
and parking_lot::Mutex's Default is Mutex::new(T::default()). Rust's
T::default() value is passed explicitly as d. -/
def PinnedMutex.mkDefault (d : T) : PinnedMutex T :=
  { inner := Mutex.new d }

/-- Pin&lt;&Self&gt; commitment: the mutex sits at a fixed address. The addr field
is the machine address the pin promises stable for the rest of the mutex's
lifetime. -/
structure PinnedSlot (T : Type) where
  addr : Nat
  mutex : PinnedMutex T
deriving DecidableEq

/-- PinnedMutexGuard (parking_lot.rs lines 33-35): holding the engine lock.
addr is the (stable) address of the protected T; value its current contents. -/
structure PinnedMutexGuard (T : Type) where
  addr : Nat
  value : T
deriving DecidableEq

/-- PinnedMutex::lock (parking_lot.rs lines 23-26): acquires the engine lock on
the pinned mutex and mints a guard over its contents. parking_lot cannot
poison, so lock always yields a guard. -/
def PinnedSlot.lock (s : PinnedSlot T) : PinnedMutexGuard T × PinnedSlot T :=
  ({ addr := s.addr, value := s.mutex.inner.value },
   { addr := s.addr, mutex := { inner := { value := s.mutex.inner.value, locked := true } } })

/-- parking_lot's lock cast into the common outcome type: this engine has no
poison branch, so the fatal path does not exist for it. -/
def PinnedSlot.lockOutcome (s : PinnedSlot T) :
    LockOutcome (PinnedMutexGuard T × PinnedSlot T) :=
  .acquired s.lock

/-- Pin&lt;&T&gt;: an address-stable shared reference, identified by the address it
points at. -/
structure PinRef (T : Type) where
  addr : Nat
deriving DecidableEq

/-- PinnedMutexGuard::as_ref (parking_lot.rs lines 39-42):
Pin::new_unchecked(&self.guard), a pinned shared view of the protected T at
its stable address. It takes &self only, so any number of such views may be
minted from one live guard. -/
def PinnedMutexGuard.as_ref (g : PinnedMutexGuard T) : PinRef T :=
  { addr := g.addr }

/-- Reading a pinned shared view against a slot: the view observes the value
stored at its address, none if it points elsewhere. -/
def PinnedSlot.readView (s : PinnedSlot T) (r : PinRef T) : Option T :=
  if r.addr = s.addr then some s.mutex.inner.value else none

/-- Deref for PinnedMutexGuard (parking_lot.rs lines 52-57): &self.guard, the
plain shared view of the protected value. -/
def PinnedMutexGuard.deref (g : PinnedMutexGuard T) : T :=
  g.value

/-- DerefMut (parking_lot.rs lines 59-63, T: Unpin only) and as_mut
(lines 45-49, any T): writing through the mutable view replaces the protected
value in place; the address is untouched. -/
def PinnedMutexGuard.storeMut (g : PinnedMutexGuard T) (v : T) : PinnedMutexGuard T :=
  { addr := g.addr, value := v }

/-- The engine MutexGuard's destructor: releases the lock, leaving the
protected value as last written through the guard. PinnedMutexGuard has no
explicit Drop impl in any variant of the source; Rust's drop glue still
destroys the contained guard field on every exit path of the holding scope,
which is what releases the lock. -/
def PinnedSlot.dropGuard (s : PinnedSlot T) (g : PinnedMutexGuard T) : PinnedSlot T :=
  { addr := s.addr, mutex := { inner := { value := g.value, locked := false } } }

/-- A whole critical section: lock, access the contents through the guard's
views, and leave the scope, dropping the guard (which releases the lock). -/
def PinnedSlot.withLock (s : PinnedSlot T) (body : T → T) : PinnedSlot T :=
  let p := s.lock
  let g := p.1.storeMut (body p.1.deref)
  p.2.dropGuard g

/-- parking_lot::Condvar, the external wait engine, modelled at its boundary:
the queue of suspended waiters (thread ids). -/
structure Condvar where
  waitQueue : List Nat
deriving DecidableEq

/-- parking_lot::Condvar's Default / new: an empty condition variable. -/
def Condvar.mkDefault : Condvar :=
  { waitQueue := [] }

/-- Modelled from the spec: parking_lot::Condvar::wait_while, the external wait
engine's loop (only its caller is in src; spec section 4.3). If the predicate
on the current contents is false it returns at once, without releasing the
lock or suspending; otherwise it releases, suspends until the next wakeup
(spurious or notified), reacquires observing the then-current contents, and
re-checks. wakeups lists the contents observed at each successive wakeup; the
result pairs the final contents with the number of suspensions taken, none
meaning the waiter is still suspended with the predicate still true. -/
def Condvar.waitWhileEngine (cond : T → Bool) (v : T) (wakeups : List T) :
    Option (T × Nat) :=
  if cond v then
    match wakeups with
    | [] => none
    | w :: rest => (Condvar.waitWhileEngine cond w rest).map (fun p => (p.1, p.2 + 1))
  else some (v, 0)

/-- PinnedCondvar (parking_lot.rs line 66): a tuple struct wrapping the engine
condition variable. -/
structure PinnedCondvar where
  engine : Condvar
deriving DecidableEq

/-- derive(Default) on PinnedCondvar (parking_lot.rs line 65): field-wise
default. -/
def PinnedCondvar.mkDefault : PinnedCondvar :=
  { engine := Condvar.mkDefault }

/-- PinnedCondvar::new (parking_lot.rs lines 69-71): literally
Default::default(). -/
def PinnedCondvar.new : PinnedCondvar :=
  PinnedCondvar.mkDefault

/-- Pin&lt;&mut T&gt; as handed to the wait_while predicate: the pinned mutable
view of the current contents. -/
structure PinMutRef (T : Type) where
  value : T
deriving DecidableEq

/-- Pin::new_unchecked on the engine's &mut T (parking_lot.rs line 90): wraps
the current contents as the pinned view; the value is never moved. -/
def PinMutRef.ofMut (v : T) : PinMutRef T :=
  { value := v }

/-- PinnedCondvar::wait_while (parking_lot.rs lines 79-93): unwraps the guard,
runs the engine loop with the predicate applied through the pinned projection,
and rewraps the resulting engine guard over the same, unmoved mutex. -/
def PinnedCondvar.wait_while (_cv : PinnedCondvar) (g : PinnedMutexGuard T)
    (condition : PinMutRef T → Bool) (wakeups : List T) :
    Option (PinnedMutexGuard T × Nat) :=
  (Condvar.waitWhileEngine (fun v => condition (PinMutRef.ofMut v)) g.value wakeups).map
    (fun p => ({ addr := g.addr, value := p.1 }, p.2))

/-- PinnedCondvar::wait (parking_lot.rs lines 73-77) at the slot level: the
guard is consumed (the engine's wait atomically releases the lock for the
suspension), other threads run env under the lock while the waiter sleeps,
and on wakeup the lock is reacquired and a fresh guard is minted over the
same, unmoved mutex. -/
def PinnedCondvar.waitRun (_cv : PinnedCondvar) (s : PinnedSlot T)
    (g : PinnedMutexGuard T) (env : T → T) : PinnedMutexGuard T × PinnedSlot T :=
  let s1 := s.dropGuard g
  let s2 : PinnedSlot T :=
    { addr := s1.addr,
      mutex := { inner := { value := env s1.mutex.inner.value,
                            locked := s1.mutex.inner.locked } } }
  s2.lock

/-- Reacquisition of the engine lock inside PinnedCondvar::wait, cast into the
common outcome type: parking_lot has no poisoning, so reacquisition never
takes the fatal path. -/
def PinnedCondvar.waitRunOutcome (cv : PinnedCondvar) (s : PinnedSlot T)
    (g : PinnedMutexGuard T) (env : T → T) :
    LockOutcome (PinnedMutexGuard T × PinnedSlot T) :=
  .acquired (PinnedCondvar.waitRun cv s g env)

/-- PinnedCondvar::notify_one (parking_lot.rs lines 95-97): wakes at most one
suspended waiter; the mutex is untouched, and with no waiters present this is
a no-op. -/
def PinnedCondvar.notify_one (cv : PinnedCondvar) : PinnedCondvar :=
  { engine := { waitQueue := cv.engine.waitQueue.drop 1 } }

/-- PinnedCondvar::notify_all (parking_lot.rs lines 99-101): wakes every
suspended waiter; the mutex is untouched, and with no waiters present this is
a no-op. -/
def PinnedCondvar.notify_all (_cv : PinnedCondvar) : PinnedCondvar :=
  { engine := { waitQueue := [] } }

/-- One client interaction with a pinned mutex over its lifetime: a plain
critical section, a wait cycle, a wait_while cycle, or a notification. -/
inductive Op (T : Type) where
  | lockCycle (body : T → T)
  | waitCycle (env : T → T)
  | waitWhileCycle (condition : PinMutRef T → Bool) (wakeups : List T)
  | notifyOneOp
  | notifyAllOp

/-- Run one interaction against the pinned slot, built from the library's
operations: lock, guard views, condvar wait / wait_while, guard drop. -/
def applyOp (cv : PinnedCondvar) (s : PinnedSlot T) : Op T → PinnedSlot T
  | .lockCycle body => s.withLock body
  | .waitCycle env =>
      let p := s.lock
      let q := PinnedCondvar.waitRun cv p.2 p.1 env
      q.2.dropGuard q.1
  | .waitWhileCycle condition wakeups =>
      let p := s.lock
      match PinnedCondvar.wait_while cv p.1 condition wakeups with
      | some r => p.2.dropGuard r.1
      | none => p.2.dropGuard p.1
  | .notifyOneOp => s
  | .notifyAllOp => s

/-- Run a whole history of interactions. -/
def applyOps (cv : PinnedCondvar) (s : PinnedSlot T) : List (Op T) → PinnedSlot T
  | [] => s
  | o :: rest => applyOps cv (applyOp cv s o) rest

end ParkingLot

namespace StdSync

/-- std::sync::Mutex, the external lock engine of src/std.rs and src/lib.rs,
modelled at its boundary: value, locked flag, and the poisoned flag set by an
abnormal release. -/
structure Mutex (T : Type) where
  value : T
  locked : Bool
  poisoned : Bool
deriving DecidableEq

variable {T : Type}

/-- std::sync::Mutex::new: fresh, unlocked, not poisoned. -/
def Mutex.new (init : T) : Mutex T :=
  { value := init, locked := false, poisoned := false }

/-- std::sync::Mutex::lock at the engine boundary: Result&lt;guard, PoisonError&gt;;
the error of a poisoned engine still carries the contents (recoverable at the
engine level). -/
def Mutex.lockEngine (m : Mutex T) : Except T T :=
  if m.poisoned then .error m.value else .ok m.value

/-- PinnedMutex (std.rs lines 8-10, lib.rs lines 5-7). -/
structure PinnedMutex (T : Type) where
  inner : Mutex T
deriving DecidableEq

/-- PinnedMutex::new (std.rs lines 13-17, lib.rs lines 10-14). -/
def PinnedMutex.new (init : T) : PinnedMutex T :=
  { inner := Mutex.new init }

/-- Pin&lt;&Self&gt; commitment for the std variant: mutex at a fixed address. -/
structure PinnedSlot (T : Type) where
  addr : Nat
  mutex : PinnedMutex T
deriving DecidableEq

/-- PinnedMutexGuard (std.rs lines 37-39, lib.rs lines 25-27). -/
structure PinnedMutexGuard (T : Type) where
  addr : Nat
  value : T
deriving DecidableEq

/-- PinnedMutex::lock (std.rs lines 23-30, lib.rs lines 16-22):
self.inner.lock().expect("PinnedMutex does not expose poison"). The engine's
recoverable poison error is turned into a fatal termination by expect; the
caller is never handed an error value. -/
def PinnedSlot.lock (s : PinnedSlot T) : LockOutcome (PinnedMutexGuard T × PinnedSlot T) :=
  match s.mutex.inner.lockEngine with
  | .ok v =>
      .acquired ({ addr := s.addr, value := v },
        { addr := s.addr,
          mutex := { inner := { value := v, locked := true,
                                poisoned := s.mutex.inner.poisoned } } })
  | .error _ => .fatal

/-- PinnedMutexGuard::as_ref (std.rs lines 43-46): the pinned shared view at
the protected value's stable address. -/
def PinnedMutexGuard.as_ref (g : PinnedMutexGuard T) : ParkingLot.PinRef T :=
  { addr := g.addr }

/-- Deref (std.rs lines 56-61, lib.rs lines 29-34): the plain shared view. -/
def PinnedMutexGuard.deref (g : PinnedMutexGuard T) : T :=
  g.value

/-- DerefMut (std.rs lines 63-68, lib.rs lines 36-40, T: Unpin only) and
as_mut (std.rs lines 49-53, any T): in-place store through the mutable view. -/
def PinnedMutexGuard.storeMut (g : PinnedMutexGuard T) (v : T) : PinnedMutexGuard T :=
  { addr := g.addr, value := v }

/-- The std::sync::MutexGuard destructor: releases the lock. As in the
parking_lot variant, PinnedMutexGuard has no explicit Drop impl (lib.rs line
42 marks one as TODO), but Rust's drop glue destroys the contained guard field
on every exit path, releasing the lock. -/
def PinnedSlot.dropGuard (s : PinnedSlot T) (g : PinnedMutexGuard T) : PinnedSlot T :=
  { addr := s.addr,
    mutex := { inner := { value := g.value, locked := false,
                          poisoned := s.mutex.inner.poisoned } } }

/-- A whole critical section for the std variant; none results when lock
terminated fatally on a poisoned engine. -/
def PinnedSlot.withLock (s : PinnedSlot T) (body : T → T) : Option (PinnedSlot T) :=
  match s.lock with
  | .acquired p => some (p.2.dropGuard (p.1.storeMut (body p.1.deref)))
  | .fatal => none

end StdSync

/-- Which guard operation of the interface is being requested. -/
inductive GuardAccess where
  | derefAccess
  | derefMutAccess
  | asRefAccess
  | asMutAccess
deriving DecidableEq

/-- Whether each guard operation exists for a given T, read off the impl
headers of parking_lot.rs (lines 37-63) and std.rs (lines 41-68): Deref,
as_ref and as_mut are provided for every T; DerefMut (the plain mutable view)
is provided only under the bound T: Unpin. The argument records whether T is
Unpin. There is no runtime check anywhere: an impl that is absent simply does
not exist at the interface, and each provided operation is a total function. -/
def accessAvailable : GuardAccess → Bool → Bool
  | .derefMutAccess, unpinT => unpinT
  | .derefAccess, _ => true
  | .asRefAccess, _ => true
  | .asMutAccess, _ => true

namespace MutualExclusion

/-- Stage of one execution context in the scenario of spec P1, "lock,
increment, unlock": before lock; holding the guard, increment pending;
holding the guard, increment done; guard dropped and context finished. -/
inductive Phase where
  | ready
  | holding
  | incremented
  | finished
deriving DecidableEq

/-- Global state of n contexts sharing one PinnedMutex over an integer: each
context's stage, which context currently holds the guard (none while the
mutex is unlocked), and the protected integer. -/
structure Conf (n : Nat) where
  phase : Fin n → Phase
  holder : Option (Fin n)
  value : Nat

/-- Initial state: all contexts ready, mutex unlocked, value 0. -/
def Conf.init (n : Nat) : Conf n :=
  { phase := fun _ => .ready, holder := none, value := 0 }

/-- Context t currently holds a live PinnedMutexGuard. -/
def Conf.liveGuard {n : Nat} (c : Conf n) (t : Fin n) : Prop :=
  c.phase t = .holding ∨ c.phase t = .incremented

/-- One if this context's increment has landed in the protected value. -/
def phaseScore : Phase → Nat :=
  fun p => if p = .incremented ∨ p = .finished then 1 else 0

/-- Count of contexts whose increment has landed in the protected value. -/
def Conf.doneCount {n : Nat} (c : Conf n) : Nat :=
  ∑ t : Fin n, phaseScore (c.phase t)

/-- Interleaved execution. A context may acquire the lock when the engine is
free (PinnedMutex::lock blocks otherwise), increment the integer through its
guard's mutable view, and drop its guard, releasing the lock. The engine
grants the lock to at most one context at a time; which blocked context
proceeds next is unconstrained (engine-dependent). -/
inductive Step {n : Nat} : Conf n → Conf n → Prop where
  | lockStep (c : Conf n) (t : Fin n) :
      c.phase t = .ready → c.holder = none →
      Step c { phase := Function.update c.phase t .holding, holder := some t,
               value := c.value }
  | incStep (c : Conf n) (t : Fin n) :
      c.phase t = .holding → c.holder = some t →
      Step c { phase := Function.update c.phase t .incremented, holder := some t,
               value := c.value + 1 }
  | unlockStep (c : Conf n) (t : Fin n) :
      c.phase t = .incremented → c.holder = some t →
      Step c { phase := Function.update c.phase t .finished, holder := none,
               value := c.value }

/-- Reachability under any interleaving. -/
def Reachable {n : Nat} : Conf n → Conf n → Prop :=
  Relation.ReflTransGen Step

/-- Inductive invariant: a context has a live guard exactly when it is the
recorded holder, and the protected value counts the landed increments. -/
def Conf.inv {n : Nat} (c : Conf n) : Prop :=
  (∀ t, c.liveGuard t ↔ c.holder = some t) ∧ c.value = c.doneCount

/-- Witness run, n = 1: after context 0 locks. -/
def wConfA : Conf 1 :=
  { phase := Function.update (Conf.init 1).phase 0 .holding, holder := some 0,
    value := (Conf.init 1).value }

/-- Witness run, n = 1: after context 0 increments. -/
def wConfB : Conf 1 :=
  { phase := Function.update wConfA.phase 0 .incremented, holder := some 0,
    value := wConfA.value + 1 }

/-- Witness run, n = 1: after context 0 drops its guard. -/
def wFinal : Conf 1 :=
  { phase := Function.update wConfB.phase 0 .finished, holder := none,
    value := wConfB.value }

end MutualExclusion

end PinnedMutexModel

namespace PinnedMutexModel

/-- Unfolding the std variant's lock on an unpoisoned or poisoned engine:
every acquired guard pair has the shape minted by lock. -/
theorem StdSync.lock_acquired_shape {T : Type} (s : StdSync.PinnedSlot T)
    (p : StdSync.PinnedMutexGuard T × StdSync.PinnedSlot T)
    (h : s.lock = .acquired p) :
    p = ({ addr := s.addr, value := s.mutex.inner.value },
      { addr := s.addr,
        mutex := { inner := { value := s.mutex.inner.value, locked := true,
                              poisoned := s.mutex.inner.poisoned } } }) := by
  unfold StdSync.PinnedSlot.lock StdSync.Mutex.lockEngine at h
  by_cases hp : s.mutex.inner.poisoned = true
  · simp [hp] at h
  · rw [Bool.not_eq_true] at hp
    rw [hp]
    simp [hp] at h
    exact h.symm

open ParkingLot in
/-- The guard returned by wait_while carries the address of the guard that was
consumed: the mutex is not moved across the suspension. -/
theorem ParkingLot.wait_while_addr {T : Type} (cv : PinnedCondvar)
    (g : PinnedMutexGuard T) (condition : PinMutRef T → Bool) (wakeups : List T) :
    allSome (PinnedCondvar.wait_while cv g condition wakeups)
      (fun r => (r.1).addr = g.addr) := by
  unfold PinnedCondvar.wait_while
  cases Condvar.waitWhileEngine (fun v => condition (PinMutRef.ofMut v)) g.value wakeups with
  | none => exact trivial
  | some p =>
      show ((⟨g.addr, p.1⟩ : PinnedMutexGuard T), p.2).1.addr = g.addr
      rfl

open ParkingLot in
/-- Each single interaction preserves the pinned slot's address. -/
theorem ParkingLot.applyOp_addr {T : Type} (cv : PinnedCondvar) (s : PinnedSlot T)
    (o : Op T) : (applyOp cv s o).addr = s.addr := by
  cases o with
  | lockCycle body => rfl
  | waitCycle env => rfl
  | waitWhileCycle condition wakeups =>
      simp only [applyOp]
      cases PinnedCondvar.wait_while cv (s.lock).1 condition wakeups <;> rfl
  | notifyOneOp => rfl
  | notifyAllOp => rfl

open ParkingLot in
/-- A whole history of interactions preserves the pinned slot's address. -/
theorem ParkingLot.applyOps_addr {T : Type} (cv : PinnedCondvar) (s : PinnedSlot T)
    (ops : List (Op T)) : (applyOps cv s ops).addr = s.addr := by
  induction ops generalizing s with
  | nil => rfl
  | cons o rest ih =>
      simpa only [applyOps, applyOp_addr] using ih (applyOp cv s o)

/-- C1: once pinned, the address of the contained T never changes: after any
history of lock cycles, wait and wait_while cycles and notifications, the
slot's address is unchanged and as_ref on a freshly minted guard yields
exactly the address yielded on the first lock; the guard reacquired inside a
wait and the guard returned by wait_while also carry that same address; the
std variant's lock likewise mints guards at the slot's fixed address. -/
theorem claim_C1_address_stability :
    ∀ (T : Type) (cv : ParkingLot.PinnedCondvar) (s : ParkingLot.PinnedSlot T)
      (ops : List (ParkingLot.Op T)),
      (ParkingLot.applyOps cv s ops).addr = s.addr ∧
      (((ParkingLot.applyOps cv s ops).lock).1).as_ref =
        (((s.lock).1).as_ref) ∧
      (∀ env, ((ParkingLot.PinnedCondvar.waitRun cv (s.lock).2 (s.lock).1 env).1).as_ref =
        ((s.lock).1).as_ref) ∧
      (∀ condition wakeups,
        allSome (ParkingLot.PinnedCondvar.wait_while cv (s.lock).1 condition wakeups)
          (fun r => (r.1).as_ref = ((s.lock).1).as_ref)) ∧
      (∀ (s2 : StdSync.PinnedSlot T),
        (s2.lock).onAcquired (fun p => (p.1).as_ref = ⟨s2.addr⟩) ∧
        (∀ body, allSome (s2.withLock body) (fun s3 => s3.addr = s2.addr))) := by
  intro T cv s ops
  refine ⟨ParkingLot.applyOps_addr cv s ops, ?_, fun env => rfl, ?_, ?_⟩
  · show ParkingLot.PinRef.mk (ParkingLot.applyOps cv s ops).addr = ⟨s.addr⟩
    rw [ParkingLot.applyOps_addr]
  · intro condition wakeups
    have hw := ParkingLot.wait_while_addr cv (s.lock).1 condition wakeups
    cases hE : ParkingLot.PinnedCondvar.wait_while cv (s.lock).1 condition wakeups with
    | none => exact trivial
    | some r =>
        rw [hE] at hw
        have ha : (r.1).addr = ((s.lock).1).addr := hw
        show ParkingLot.PinRef.mk (r.1).addr = ⟨((s.lock).1).addr⟩
        rw [ha]
  · intro s2
    constructor
    · cases h : s2.lock with
      | fatal => exact trivial
      | acquired p =>
          have hp := StdSync.lock_acquired_shape s2 p h
          show (p.1).as_ref = ⟨s2.addr⟩
          rw [hp]
          rfl
    · intro body
      simp only [StdSync.PinnedSlot.withLock]
      cases h : s2.lock with
      | fatal => exact trivial
      | acquired p =>
          have hp := StdSync.lock_acquired_shape s2 p h
          show ((p.2).dropGuard ((p.1).storeMut (body (p.1).deref))).addr = s2.addr
          rw [hp]
          rfl

/-- C4: on the poisoning-aware std engine, a poisoned state makes lock
terminate fatally, never returning a recoverable error value; an unpoisoned
engine acquires normally; and the parking_lot engine, which never poisons,
never takes the fatal path — neither at lock nor at the lock reacquisition
inside the condition-variable wait. -/
theorem claim_C4_poisoning_is_fatal :
    ∀ (T : Type) (s : StdSync.PinnedSlot T),
      (s.mutex.inner.poisoned = true → s.lock = .fatal) ∧
      (s.mutex.inner.poisoned = false →
        s.lock = .acquired ({ addr := s.addr, value := s.mutex.inner.value },
          { addr := s.addr,
            mutex := { inner := { value := s.mutex.inner.value, locked := true,
                                  poisoned := false } } })) ∧
      (∀ s1 : ParkingLot.PinnedSlot T, s1.lockOutcome ≠ .fatal) ∧
      (∀ (cv : ParkingLot.PinnedCondvar) (s1 : ParkingLot.PinnedSlot T)
         (g : ParkingLot.PinnedMutexGuard T) (env : T → T),
        ParkingLot.PinnedCondvar.waitRunOutcome cv s1 g env ≠ .fatal) := by
  intro T s
  refine ⟨?_, ?_, ?_, ?_⟩
  · intro h
    simp [StdSync.PinnedSlot.lock, StdSync.Mutex.lockEngine, h]
  · intro h
    simp [StdSync.PinnedSlot.lock, StdSync.Mutex.lockEngine, h]
  · intro s1 h
    exact LockOutcome.noConfusion h
  · intro cv s1 g env h
    exact LockOutcome.noConfusion h

/-- Witness for C4: a concrete poisoned std mutex makes lock fatal; the same
mutex unpoisoned acquires a guard. -/
theorem claim_C4_witness :
    StdSync.PinnedSlot.lock ⟨3, ⟨⟨7, false, true⟩⟩⟩ = (.fatal : LockOutcome _) ∧
    StdSync.PinnedSlot.lock (⟨3, ⟨⟨7, false, false⟩⟩⟩ : StdSync.PinnedSlot Nat) =
      .acquired (⟨3, 7⟩, ⟨3, ⟨⟨7, true, false⟩⟩⟩) :=
  ⟨(claim_C4_poisoning_is_fatal Nat ⟨3, ⟨⟨7, false, true⟩⟩⟩).1 rfl,
   (claim_C4_poisoning_is_fatal Nat ⟨3, ⟨⟨7, false, false⟩⟩⟩).2.1 rfl⟩

/-- C5: the plain mutable view (DerefMut) exists exactly when T is Unpin —
for a pin-requiring type the operation is absent from the interface, a
type-level rejection with no runtime counterpart — while the pinned mutable
view (as_mut) and both shared views exist for every T. -/
theorem claim_C5_mutable_view_gating :
    ∀ unpinT : Bool,
      accessAvailable .derefMutAccess unpinT = unpinT ∧
      accessAvailable .asMutAccess unpinT = true ∧
      accessAvailable .asRefAccess unpinT = true ∧
      accessAvailable .derefAccess unpinT = true := by
  intro u
  cases u <;> exact ⟨rfl, rfl, rfl, rfl⟩

/-- C6: PinnedMutex::new(init) is unlocked and holds exactly init, and a value
written through a guard persists across release and reacquisition: after
locking, storing v and dropping the guard, the next lock's guard reads v; in
particular the scenario with 0 and 16. -/
theorem claim_C6_new_and_persistence :
    ∀ (T : Type) (init v : T) (a : Nat),
      (ParkingLot.PinnedMutex.new init).inner.locked = false ∧
      (ParkingLot.PinnedMutex.new init).inner.value = init ∧
      ((ParkingLot.PinnedSlot.withLock ⟨a, ParkingLot.PinnedMutex.new init⟩
          (fun _ => v)).lock).1.deref = v ∧
      ((ParkingLot.PinnedSlot.withLock ⟨0, ParkingLot.PinnedMutex.new (0 : Nat)⟩
          (fun _ => 16)).lock).1.deref = 16 := by
  intro T init v a
  refine ⟨rfl, rfl, rfl, rfl⟩

/-- C7: the pinned shared view is obtainable from a live guard any number of
times — successive as_ref calls on the same guard produce equal views — and
any two such views read identical contents against every slot state. -/
theorem claim_C7_aliased_views_agree :
    ∀ (T : Type) (s : ParkingLot.PinnedSlot T),
      ((s.lock).1).as_ref = ((s.lock).1).as_ref ∧
      (∀ st : ParkingLot.PinnedSlot T,
        st.readView ((s.lock).1).as_ref = st.readView ((s.lock).1).as_ref) ∧
      (∀ unpinT : Bool, accessAvailable .asRefAccess unpinT = true) := by
  intro T s
  refine ⟨rfl, fun st => rfl, fun u => by cases u <;> rfl⟩

/-- C8: lock release happens when the guard's scope ends, in every engine
variant of the source: dropping the guard leaves the engine unlocked, and a
whole critical section ends with the lock released, both for the parking_lot
variant and for the std variant shared by std.rs and lib.rs. -/
theorem claim_C8_release_on_scope_exit :
    ∀ (T : Type) (s : ParkingLot.PinnedSlot T) (g : ParkingLot.PinnedMutexGuard T)
      (body : T → T) (s2 : StdSync.PinnedSlot T) (g2 : StdSync.PinnedMutexGuard T),
      (s.dropGuard g).mutex.inner.locked = false ∧
      (s.withLock body).mutex.inner.locked = false ∧
      (s2.dropGuard g2).mutex.inner.locked = false ∧
      (allSome (s2.withLock body) (fun s3 => s3.mutex.inner.locked = false)) := by
  intro T s g body s2 g2
  refine ⟨rfl, rfl, rfl, ?_⟩
  simp only [StdSync.PinnedSlot.withLock]
  cases s2.lock with
  | fatal => exact trivial
  | acquired p => exact rfl

/-- C9: Default construction of PinnedMutex equals new applied to T's default
value, and PinnedCondvar::new is definitionally its Default construction. -/
theorem claim_C9_default_agrees_with_new :
    ∀ (T : Type) (d : T),
      ParkingLot.PinnedMutex.mkDefault d = ParkingLot.PinnedMutex.new d ∧
      ParkingLot.PinnedCondvar.new = ParkingLot.PinnedCondvar.mkDefault := by
  intro T d
  exact ⟨rfl, rfl⟩

open ParkingLot in
/-- The engine's wait_while loop returns only contents on which the predicate
is false. -/
theorem ParkingLot.waitWhileEngine_returns_false {T : Type} (cond : T → Bool) :
    ∀ (wakeups : List T) (v r : T) (k : Nat),
      Condvar.waitWhileEngine cond v wakeups = some (r, k) → cond r = false := by
  intro ws
  induction ws with
  | nil =>
      intro v r k h
      unfold Condvar.waitWhileEngine at h
      by_cases hc : cond v = true
      · simp [hc] at h
      · rw [Bool.not_eq_true] at hc
        simp [hc] at h
        rw [← h.1]
        exact hc
  | cons w rest ih =>
      intro v r k h
      unfold Condvar.waitWhileEngine at h
      by_cases hc : cond v = true
      · simp only [hc, if_true, Option.map_eq_some'] at h
        obtain ⟨p, hp, heq⟩ := h
        have hr : p.1 = r := congrArg Prod.fst heq
        exact hr ▸ ih w p.1 p.2 hp
      · rw [Bool.not_eq_true] at hc
        simp [hc] at h
        rw [← h.1]
        exact hc

open ParkingLot in
/-- If the predicate is already false, the engine loop returns the unchanged
contents with zero suspensions. -/
theorem ParkingLot.waitWhileEngine_immediate {T : Type} (cond : T → Bool) (v : T)
    (wakeups : List T) (h : cond v = false) :
    Condvar.waitWhileEngine cond v wakeups = some (v, 0) := by
  unfold Condvar.waitWhileEngine
  simp [h]

/-- C3: wait_while evaluates the predicate against the pinned mutable view of
the current contents and returns only when the predicate is false: whenever it
returns a guard, the predicate on that guard's contents is false — so no
wakeup, spurious included, with the predicate still true lets it return — and
if the predicate is already false on entry it returns the same guard at once
with zero suspensions, the lock never released. -/
theorem claim_C3_wait_while_predicate_gate :
    ∀ (T : Type) (cv : ParkingLot.PinnedCondvar) (g : ParkingLot.PinnedMutexGuard T)
      (condition : ParkingLot.PinMutRef T → Bool) (wakeups : List T),
      (∀ (r : ParkingLot.PinnedMutexGuard T) (k : Nat),
        ParkingLot.PinnedCondvar.wait_while cv g condition wakeups = some (r, k) →
        condition (ParkingLot.PinMutRef.ofMut (r.value)) = false) ∧
      (condition (ParkingLot.PinMutRef.ofMut g.value) = false →
        ParkingLot.PinnedCondvar.wait_while cv g condition wakeups = some (g, 0)) := by
  intro T cv g condition wakeups
  constructor
  · intro r k h
    unfold ParkingLot.PinnedCondvar.wait_while at h
    rw [Option.map_eq_some'] at h
    obtain ⟨p, hp, heq⟩ := h
    have h1 : ParkingLot.PinnedMutexGuard.mk g.addr p.1 = r := congrArg Prod.fst heq
    have h2 : (ParkingLot.PinnedMutexGuard.mk g.addr p.1).value = r.value :=
      congrArg ParkingLot.PinnedMutexGuard.value h1
    have h3 := ParkingLot.waitWhileEngine_returns_false
      (fun v => condition (ParkingLot.PinMutRef.ofMut v)) wakeups g.value p.1 p.2
      (by rw [hp])
    rw [← h2]
    exact h3
  · intro h
    unfold ParkingLot.PinnedCondvar.wait_while
    rw [ParkingLot.waitWhileEngine_immediate (fun v => condition (ParkingLot.PinMutRef.ofMut v))
      g.value wakeups h]
    rfl

/-- Witness for C3: with the predicate "contents equal 0", a run entered at
contents 0 that wakes at 0 (a spurious wake, predicate still true) and then at
7 returns contents on which the predicate is false; entered at contents 1 it
returns the same guard immediately with zero suspensions. -/
theorem claim_C3_witness :
    (fun r : ParkingLot.PinMutRef Nat => r.value == 0)
        (ParkingLot.PinMutRef.ofMut ((⟨5, 7⟩ : ParkingLot.PinnedMutexGuard Nat).value))
      = false ∧
    ParkingLot.PinnedCondvar.wait_while ParkingLot.PinnedCondvar.new
        (⟨5, 1⟩ : ParkingLot.PinnedMutexGuard Nat)
        (fun r => r.value == 0) [0, 7] = some (⟨5, 1⟩, 0) :=
  ⟨(claim_C3_wait_while_predicate_gate Nat ParkingLot.PinnedCondvar.new ⟨5, 0⟩
      (fun r => r.value == 0) [0, 7]).1 ⟨5, 7⟩ 2 (by rfl),
   (claim_C3_wait_while_predicate_gate Nat ParkingLot.PinnedCondvar.new ⟨5, 1⟩
      (fun r => r.value == 0) [0, 7]).2 (by rfl)⟩

open MutualExclusion in
/-- Splitting a sum over all contexts at an updated index. -/
theorem MutualExclusion.sum_phase_update {n : Nat} (phase : Fin n → Phase)
    (t : Fin n) (b : Phase) (f : Phase → Nat) :
    (∑ x : Fin n, f (Function.update phase t b x)) + f (phase t)
      = (∑ x : Fin n, f (phase x)) + f b := by
  have hpt : ∀ x : Fin n, f (Function.update phase t b x)
      = Function.update (fun y => f (phase y)) t (f b) x := by
    intro x
    by_cases hx : x = t
    · subst hx
      simp
    · simp [Function.update, hx]
  have h1 : (∑ x : Fin n, f (Function.update phase t b x))
      = f b + ∑ x ∈ Finset.univ \ {t}, f (phase x) := by
    rw [Finset.sum_congr rfl (fun x _ => hpt x)]
    exact Finset.sum_update_of_mem (Finset.mem_univ t) _ _
  have h2 : (∑ x : Fin n, f (phase x))
      = f (phase t) + ∑ x ∈ Finset.univ \ {t}, f (phase x) :=
    Finset.sum_eq_add_sum_diff_singleton (Finset.mem_univ t) _
  rw [h1, h2]
  ring

open MutualExclusion in
/-- The invariant holds initially. -/
theorem MutualExclusion.inv_init (n : Nat) : (Conf.init n).inv := by
  constructor
  · intro t
    constructor
    · intro hl
      rcases hl with h | h <;> exact absurd h (by simp [Conf.init])
    · intro h
      exact absurd h (by simp [Conf.init])
  · simp [Conf.init, Conf.doneCount, phaseScore]

open MutualExclusion in
/-- Every interleaving step preserves the invariant. -/
theorem MutualExclusion.inv_step {n : Nat} {c c' : Conf n}
    (hInv : c.inv) (hStep : Step c c') : c'.inv := by
  obtain ⟨hLive, hCount⟩ := hInv
  cases hStep with
  | lockStep t ht hh =>
      constructor
      · intro t'
        by_cases h' : t' = t
        · subst h'
          simp [Conf.liveGuard, Function.update_same]
        · have hne : ¬ (t = t') := fun hc => h' hc.symm
          simp only [Conf.liveGuard, Function.update_noteq h']
          constructor
          · intro hl
            have hold := (hLive t').mp hl
            rw [hh] at hold
            exact absurd hold (by simp)
          · intro hs
            exact absurd (Option.some.inj hs) hne
      · have hsum := sum_phase_update c.phase t Phase.holding phaseScore
        rw [ht] at hsum
        have h0 : phaseScore Phase.ready = 0 := rfl
        have h1 : phaseScore Phase.holding = 0 := rfl
        rw [h0, h1] at hsum
        show c.value = ∑ x : Fin n, phaseScore (Function.update c.phase t Phase.holding x)
        have hdc : c.doneCount = ∑ x : Fin n, phaseScore (c.phase x) := rfl
        rw [hCount, hdc]
        omega
  | incStep t ht hh =>
      constructor
      · intro t'
        by_cases h' : t' = t
        · subst h'
          simp [Conf.liveGuard, Function.update_same]
        · simp only [Conf.liveGuard, Function.update_noteq h']
          rw [← hh]
          exact hLive t'
      · have hsum := sum_phase_update c.phase t Phase.incremented phaseScore
        rw [ht] at hsum
        have h0 : phaseScore Phase.holding = 0 := rfl
        have h1 : phaseScore Phase.incremented = 1 := rfl
        rw [h0, h1] at hsum
        show c.value + 1 = ∑ x : Fin n, phaseScore (Function.update c.phase t Phase.incremented x)
        have hdc : c.doneCount = ∑ x : Fin n, phaseScore (c.phase x) := rfl
        rw [hCount, hdc]
        omega
  | unlockStep t ht hh =>
      constructor
      · intro t'
        by_cases h' : t' = t
        · subst h'
          constructor
          · intro hl
            rcases hl with h | h <;>
              exact absurd h (by simp [Function.update_same])
          · intro hs
            exact Option.noConfusion hs
        · have hne : ¬ (t = t') := fun hc => h' hc.symm
          simp only [Conf.liveGuard, Function.update_noteq h']
          constructor
          · intro hl
            have hold := (hLive t').mp hl
            rw [hh] at hold
            exact absurd (Option.some.inj hold) hne
          · intro hs
            exact Option.noConfusion hs
      · have hsum := sum_phase_update c.phase t Phase.finished phaseScore
        rw [ht] at hsum
        have h0 : phaseScore Phase.incremented = 1 := rfl
        have h1 : phaseScore Phase.finished = 1 := rfl
        rw [h0, h1] at hsum
        show c.value = ∑ x : Fin n, phaseScore (Function.update c.phase t Phase.finished x)
        have hdc : c.doneCount = ∑ x : Fin n, phaseScore (c.phase x) := rfl
        rw [hCount, hdc]
        omega

open MutualExclusion in
/-- The invariant holds in every reachable state. -/
theorem MutualExclusion.inv_reachable {n : Nat} {c : Conf n}
    (h : Reachable (Conf.init n) c) : c.inv := by
  induction h with
  | refl => exact inv_init n
  | tail h1 h2 ih => exact inv_step ih h2

/-- C2: in every state reachable by any interleaving of contexts each doing
"lock, increment, unlock" on a PinnedMutex over an integer starting at 0, at
most one context holds a live guard at any instant, and once every context has
finished, the protected value is exactly n. -/
theorem claim_C2_mutual_exclusion :
    ∀ (n : Nat) (c : MutualExclusion.Conf n),
      MutualExclusion.Reachable (MutualExclusion.Conf.init n) c →
      (∀ t1 t2, c.liveGuard t1 → c.liveGuard t2 → t1 = t2) ∧
      ((∀ t, c.phase t = .finished) → c.value = n) := by
  intro n c h
  obtain ⟨hLive, hCount⟩ := MutualExclusion.inv_reachable h
  constructor
  · intro t1 t2 h1 h2
    have e1 := (hLive t1).mp h1
    have e2 := (hLive t2).mp h2
    rw [e1] at e2
    exact Option.some.inj e2
  · intro hFin
    rw [hCount]
    have hone : ∀ t : Fin n, MutualExclusion.phaseScore (c.phase t) = 1 := by
      intro t
      simp [MutualExclusion.phaseScore, hFin t]
    show (∑ t : Fin n, MutualExclusion.phaseScore (c.phase t)) = n
    rw [Finset.sum_congr rfl (fun t _ => hone t)]
    simp

/-- Witness for C2: the concrete one-context run lock, increment, unlock ends
with value 1, and the reachable final state has at most one live guard. -/
theorem claim_C2_witness :
    MutualExclusion.wFinal.value = 1 ∧
    (∀ t1 t2 : Fin 1, MutualExclusion.wFinal.liveGuard t1 →
      MutualExclusion.wFinal.liveGuard t2 → t1 = t2) := by
  have h1 : MutualExclusion.Step (MutualExclusion.Conf.init 1) MutualExclusion.wConfA :=
    MutualExclusion.Step.lockStep (MutualExclusion.Conf.init 1) 0 rfl rfl
  have h2 : MutualExclusion.Step MutualExclusion.wConfA MutualExclusion.wConfB :=
    MutualExclusion.Step.incStep MutualExclusion.wConfA 0 (by decide) rfl
  have h3 : MutualExclusion.Step MutualExclusion.wConfB MutualExclusion.wFinal :=
    MutualExclusion.Step.unlockStep MutualExclusion.wConfB 0 (by decide) rfl
  have hr : MutualExclusion.Reachable (MutualExclusion.Conf.init 1)
      MutualExclusion.wFinal :=
    Relation.ReflTransGen.tail
      (Relation.ReflTransGen.tail (Relation.ReflTransGen.tail
        Relation.ReflTransGen.refl h1) h2) h3
  refine ⟨?_, (claim_C2_mutual_exclusion 1 MutualExclusion.wFinal hr).1⟩
  exact (claim_C2_mutual_exclusion 1 MutualExclusion.wFinal hr).2 (by decide)

/-- C10: for a guard minted by locking a slot, the plain shared view (Deref)
and the pinned shared view (as_ref) observe the same value: reading the
contents through either path yields identical results. -/
theorem claim_C10_deref_agrees_with_pinned_view :
    ∀ (T : Type) (s : ParkingLot.PinnedSlot T),
      ((s.lock).2).readView ((s.lock).1).as_ref = some ((s.lock).1).deref := by
  intro T s
  simp [ParkingLot.PinnedSlot.lock, ParkingLot.PinnedSlot.readView,
    ParkingLot.PinnedMutexGuard.as_ref, ParkingLot.PinnedMutexGuard.deref]

end PinnedMutexModel
